import Mathlib

/-!
Verification of the session and registration-gate lifecycle of
`src/service/UserService.js` (class `UserService`).

The service's own control flow is translated directly from the source.
External collaborators (the Sequelize models, `TokenService`, `MailService`,
the DTOs, `bcrypt`, `uuid`, `generateCode`) are not under `src/`; their
behaviour is modelled from the spec's collaborator contracts (sections 3, 5
and 6): keyed stores become association lists, the hasher/signer/clock become
opaque pure functions supplied in a per-request environment, and thrown
`ApiError`s become an error type returned alongside the (already mutated)
store state, since a throw after an awaited store write leaves the write in
place. Time is milliseconds since the epoch, as in a JS `Date` value.
-/

deriving instance DecidableEq for Except

namespace DashboardApi

/-- A stored account row (`UserModel`). `password` holds the bcrypt digest.
Fields not supplied at creation default to `""` / `false`. -/
structure User where
  id : Nat
  email : String
  password : String
  activationLink : String
  isActivated : Bool
  displayName : String
  location : String
  notifyAboutProductUpdates : Bool
  notifyAboutMarketNewsletter : Bool
  notifyAboutComments : Bool
  notifyAboutPurchases : Bool
  deriving DecidableEq

/-- A stored registration-code row (`RegistrationCodeModel`):
(email, otp, expiresIn, isConfirmed), at most one live row per email. -/
structure RegistrationCode where
  email : String
  otp : String
  expiresIn : Nat
  isConfirmed : Bool
  deriving DecidableEq

/-- A stored refresh-token row (`TokenModel`): the refresh-token value keyed
by the owning user id. -/
structure TokenRec where
  userId : Nat
  value : String
  deriving DecidableEq

/-- The persistent state: the three keyed stores, plus an outbox recording
each registration-code mail handed to the external sender together with the
sender's outcome (`true` = delivered). -/
structure DB where
  users : List User
  regCodes : List RegistrationCode
  tokens : List TokenRec
  outbox : List (String × String × Bool)
  deriving DecidableEq

/-- Modelled from the spec: `UserDto` (src/dtos/UserDto.js is not under src/),
the public projection of an account — non-sensitive fields only, never the
password hash or the activation link (spec sections 3). -/
structure UserDtoT where
  id : Nat
  email : String
  isActivated : Bool
  displayName : String
  location : String
  notifyAboutProductUpdates : Bool
  notifyAboutMarketNewsletter : Bool
  notifyAboutComments : Bool
  notifyAboutPurchases : Bool
  deriving DecidableEq

/-- Modelled from the spec: `RegCodeDto` (src/dtos/RegCodeDto.js is not under
src/), the public projection of a registration-code record. -/
structure RegCodeDtoT where
  email : String
  expiresIn : Nat
  isConfirmed : Bool
  deriving DecidableEq

/-- An {accessToken, refreshToken} pair as produced by
`TokenService.generateTokens`. -/
structure TokenPair where
  accessToken : String
  refreshToken : String
  deriving DecidableEq

/-- The payload returned by signUp / signIn / refresh:
`{ ...tokens, user: userDto }`. -/
structure AuthResult where
  accessToken : String
  refreshToken : String
  user : UserDtoT
  deriving DecidableEq

/-- The thrown `ApiError`s, one constructor per throw site, each carrying the
value / metadata the source attaches (`secondsLeft`, `isExpired`).
`typeError` stands for the TypeError a null dereference would raise. -/
inductive ApiErr where
  | unauthorized
  | typeError
  | signUpAlreadyRegistered (email : String)
  | signUpNotConfirmed (email : String)
  | sendCodeAlreadyRegistered (email : String)
  | sendCodeCooldown (email : String) (secondsLeft : Int)
  | verifyCodeError (code : String) (isExpired : Bool)
  | passwordMismatch (confirmNewPassword : String)
  | wrongOldPassword (oldPassword : String)
  | passwordNoOpChange (newPassword : String)
  deriving DecidableEq

/-- The per-request environment: the clock and the opaque external
capabilities. `hash`/`compare` model bcrypt (salting folded into `hash`),
`generateTokens`/`validateRefresh` model `TokenService` signing (the service
only reads `.id` from the validated claims, so claims are modelled as the
user id), `code` is the `generateCode()` draw, `activationLink` the
`uuid.v4()` draw, `freshUserId` the id the store assigns on create, and
`mailOk` the outcome of the external mail sender for this request. -/
structure Env where
  now : Nat
  hash : String → String
  compare : String → String → Bool
  generateTokens : UserDtoT → TokenPair
  validateRefresh : String → Option Nat
  freshUserId : Nat
  activationLink : String
  code : String
  mailOk : Bool

/-- `UserDto.fromModel`: project an account row. Modelled from the spec
(non-sensitive fields only). -/
def UserDto.fromModel (u : User) : UserDtoT :=
  { id := u.id
    email := u.email
    isActivated := u.isActivated
    displayName := u.displayName
    location := u.location
    notifyAboutProductUpdates := u.notifyAboutProductUpdates
    notifyAboutMarketNewsletter := u.notifyAboutMarketNewsletter
    notifyAboutComments := u.notifyAboutComments
    notifyAboutPurchases := u.notifyAboutPurchases }

/-- `RegCodeDto.fromModel` / `fromArray`: project a registration-code row.
Modelled from the spec. -/
def RegCodeDto.fromModel (r : RegistrationCode) : RegCodeDtoT :=
  { email := r.email, expiresIn := r.expiresIn, isConfirmed := r.isConfirmed }

/-- `UserModel.findOne({ where: { email } })`. Modelled from the spec:
UserStore keyed lookup by email. -/
def findUserByEmail (email : String) (db : DB) : Option User :=
  db.users.find? (fun u => u.email == email)

/-- `UserModel.findOne({ where: { id } })` / `UserModel.findByPk(id)`.
Modelled from the spec: UserStore keyed lookup by id. -/
def findUserById (id : Nat) (db : DB) : Option User :=
  db.users.find? (fun u => u.id == id)

/-- `RegistrationCodeModel.findOne({ where: { email } })`. Modelled from the
spec: RegistrationCodeStore keyed lookup by email. -/
def findRegCode (email : String) (db : DB) : Option RegistrationCode :=
  db.regCodes.find? (fun r => r.email == email)

/-- `RegistrationCodeModel.findOne({ where: { email, otp } })`: exact match on
both fields. Modelled from the spec. -/
def findRegCodeByOtp (email otp : String) (db : DB) : Option RegistrationCode :=
  db.regCodes.find? (fun r => r.email == email && r.otp == otp)

/-- `RegistrationCodeModel.upsert`: at most one row per email (spec section
3), so the new row replaces any row for that email. Modelled from the spec. -/
def upsertRegCode (c : RegistrationCode) (l : List RegistrationCode) :
    List RegistrationCode :=
  c :: l.filter (fun r => !(r.email == c.email))

/-- `RegistrationCodeModel.destroy({ where: { email } })`. Modelled from the
spec. -/
def destroyRegCode (email : String) (l : List RegistrationCode) :
    List RegistrationCode :=
  l.filter (fun r => !(r.email == email))

/-- `codeData.update({ isConfirmed: true })`: active-record update of the row
matched by (email, otp). Modelled from the spec. -/
def confirmRegCode (email otp : String) (l : List RegistrationCode) :
    List RegistrationCode :=
  l.map (fun r => if r.email == email && r.otp == otp
                  then { r with isConfirmed := true } else r)

/-- `TokenService.saveRefreshToken(userId, token)` (src/service/TokenService.js
is not under src/). Modelled from the spec: SessionStore `save` with
overwrite-per-user-id semantics (sections 5 and 6). -/
def saveRefreshToken (userId : Nat) (v : String) (l : List TokenRec) :
    List TokenRec :=
  ⟨userId, v⟩ :: l.filter (fun t => !(t.userId == userId))

/-- `TokenService.findRefreshToken(token)`. Modelled from the spec:
SessionStore `findByValue`. -/
def findRefreshToken (v : String) (l : List TokenRec) : Option TokenRec :=
  l.find? (fun t => t.value == v)

/-- `TokenService.removeRefreshToken(token)`. Modelled from the spec:
SessionStore `removeByValue`. -/
def removeRefreshToken (v : String) (l : List TokenRec) : List TokenRec :=
  l.filter (fun t => !(t.value == v))

/-- `user.update(patch)` on a loaded row: replace the row with the matching
id. Modelled from the spec (section 9: explicit update-by-id). -/
def updateUser (u : User) (l : List User) : List User :=
  l.map (fun v => if v.id == u.id then u else v)

/-- JS `Date#getSeconds`: the seconds-of-minute field of the instant. Every
real timezone offset is a whole number of minutes, so the local field equals
the UTC one, `(t / 1000) % 60`. -/
def getSeconds (t : Nat) : Int :=
  ((t / 1000) % 60 : Nat)

/-- The row `UserModel.create` inserts during signUp (line 48): hashed
password, fresh activation link, created pre-activated (`isActivated: true`),
store defaults for the unspecified profile fields. -/
def newAccount (env : Env) (email password : String) : User :=
  { id := env.freshUserId
    email := email
    password := env.hash password
    activationLink := env.activationLink
    isActivated := true
    displayName := ""
    location := ""
    notifyAboutProductUpdates := false
    notifyAboutMarketNewsletter := false
    notifyAboutComments := false
    notifyAboutPurchases := false }

/-- The success payload of signUp: `{ ...tokens, user: userDto }` for the
freshly created account. -/
def signUpOk (env : Env) (email password : String) : AuthResult :=
  { accessToken := (env.generateTokens (UserDto.fromModel (newAccount env email password))).accessToken
    refreshToken := (env.generateTokens (UserDto.fromModel (newAccount env email password))).refreshToken
    user := UserDto.fromModel (newAccount env email password) }

/-- `UserService.signUp(email, password)` (lines 13-57): reject if the email
is taken, reject if no confirmed registration code, else hash, create the
account pre-activated, destroy the consumed code, mint and persist a token
pair. -/
def signUp (env : Env) (email password : String) (db : DB) :
    Except ApiErr AuthResult × DB :=
  match findUserByEmail email db with
  | some _ => (.error (.signUpAlreadyRegistered email), db)
  | none =>
    match findRegCode email db with
    | none => (.error (.signUpNotConfirmed email), db)
    | some codeData =>
      if !codeData.isConfirmed then (.error (.signUpNotConfirmed email), db)
      else
        let user := newAccount env email password
        let db1 : DB := { db with users := user :: db.users }
        let db2 : DB := { db1 with regCodes := destroyRegCode email db1.regCodes }
        let userDto := UserDto.fromModel user
        let tokens := env.generateTokens userDto
        let db3 : DB :=
          { db2 with tokens := saveRefreshToken userDto.id tokens.refreshToken db2.tokens }
        (.ok (signUpOk env email password), db3)

/-- The success payload of refresh / signIn: `{ ...tokens, user: userDto }`
for the re-resolved owner. -/
def refreshOk (env : Env) (user : User) : AuthResult :=
  { accessToken := (env.generateTokens (UserDto.fromModel user)).accessToken
    refreshToken := (env.generateTokens (UserDto.fromModel user)).refreshToken
    user := UserDto.fromModel user }

/-- `UserService.refresh(refreshToken)` (lines 110-134): reject a falsy token
(the empty string), reject if no stored match, remove the matched record,
then validate the signature; on validation failure the record stays removed.
On success, re-resolve the owner and mint and persist a fresh pair.
A missing owner row would crash on `UserDto.fromModel(null)` (`typeError`). -/
def refresh (env : Env) (refreshToken : String) (db : DB) :
    Except ApiErr AuthResult × DB :=
  if refreshToken == "" then (.error .unauthorized, db)
  else
    match findRefreshToken refreshToken db.tokens with
    | none => (.error .unauthorized, db)
    | some _ =>
      let db1 : DB := { db with tokens := removeRefreshToken refreshToken db.tokens }
      match env.validateRefresh refreshToken with
      | none => (.error .unauthorized, db1)
      | some uid =>
        match findUserById uid db1 with
        | none => (.error .typeError, db1)
        | some user =>
          let userDto := UserDto.fromModel user
          let tokens := env.generateTokens userDto
          let db2 : DB :=
            { db1 with tokens := saveRefreshToken userDto.id tokens.refreshToken db1.tokens }
          (.ok (refreshOk env user), db2)

/-- The issuing tail of `sendRegistrationCode` (lines 174-184): draw a code,
upsert the row with expiry `now + 1 minute` and `isConfirmed: false`, hand
the mail to the external sender, return the projected row. The sender is
modelled from the spec as best-effort and non-throwing (sections 4.1 and 6):
its outcome is recorded in the outbox and does not steer the flow. -/
def issueCode (env : Env) (email : String) (db : DB) :
    Except ApiErr RegCodeDtoT × DB :=
  let newCode : RegistrationCode :=
    { email := email
      otp := env.code
      expiresIn := env.now + 60000
      isConfirmed := false }
  let db1 : DB := { db with regCodes := upsertRegCode newCode db.regCodes }
  let db2 : DB := { db1 with outbox := (email, env.code, env.mailOk) :: db1.outbox }
  (.ok (RegCodeDto.fromModel newCode), db2)

/-- `UserService.sendRegistrationCode(email)` (lines 136-185): reject if the
email is taken; if a code row exists whose expiry is still in the future,
reject with the cooldown error whose `secondsLeft` is the difference of the
two `getSeconds()` fields; otherwise issue. -/
def sendRegistrationCode (env : Env) (email : String) (db : DB) :
    Except ApiErr RegCodeDtoT × DB :=
  match findUserByEmail email db with
  | some _ => (.error (.sendCodeAlreadyRegistered email), db)
  | none =>
    match findRegCode email db with
    | some candidateCode =>
      if env.now < candidateCode.expiresIn then
        (.error (.sendCodeCooldown email
          (getSeconds candidateCode.expiresIn - getSeconds env.now)), db)
      else issueCode env email db
    | none => issueCode env email db

/-- `UserService.verifyRegistrationCode(email, code)` (lines 187-222): no row
matching both email and otp → invalid (isExpired = false); matching row whose
expiry is in the past → expired (isExpired = true); else mark the row
confirmed and return its projection. -/
def verifyRegistrationCode (env : Env) (email code : String) (db : DB) :
    Except ApiErr RegCodeDtoT × DB :=
  match findRegCodeByOtp email code db with
  | none => (.error (.verifyCodeError code false), db)
  | some codeData =>
    if codeData.expiresIn < env.now then
      (.error (.verifyCodeError code true), db)
    else
      let db1 : DB := { db with regCodes := confirmRegCode email code db.regCodes }
      (.ok (RegCodeDto.fromModel { codeData with isConfirmed := true }), db1)

/-- The field set `updateProfileData` writes. -/
structure ProfileFields where
  email : String
  displayName : String
  location : String
  notifyAboutProductUpdates : Bool
  notifyAboutMarketNewsletter : Bool
  notifyAboutComments : Bool
  notifyAboutPurchases : Bool
  deriving DecidableEq

/-- Apply the `updateProfileData` patch to a loaded row: exactly the seven
profile fields, nothing else. -/
def applyProfile (f : ProfileFields) (u : User) : User :=
  { u with
    email := f.email
    displayName := f.displayName
    location := f.location
    notifyAboutProductUpdates := f.notifyAboutProductUpdates
    notifyAboutMarketNewsletter := f.notifyAboutMarketNewsletter
    notifyAboutComments := f.notifyAboutComments
    notifyAboutPurchases := f.notifyAboutPurchases }

/-- `UserService.updateProfileData(fields, userId)` (lines 224-231): load by
primary key, write the seven profile fields, return the projection. A missing
row would crash on `null.update` (`typeError`). -/
def updateProfileData (f : ProfileFields) (userId : Nat) (db : DB) :
    Except ApiErr UserDtoT × DB :=
  match findUserById userId db with
  | none => (.error .typeError, db)
  | some user =>
    let user1 := applyProfile f user
    (.ok (UserDto.fromModel user1), { db with users := updateUser user1 db.users })

/-- The argument object of `updateProfilePassword`. -/
structure PasswordFields where
  oldPassword : String
  newPassword : String
  confirmNewPassword : String
  deriving DecidableEq

/-- `UserService.updateProfilePassword` (lines 233-281): confirmation
mismatch, then wrong old password, then no-op new password, each rejected in
that order; otherwise hash and store the new password. -/
def updateProfilePassword (env : Env) (f : PasswordFields) (userId : Nat)
    (db : DB) : Except ApiErr UserDtoT × DB :=
  if !(f.newPassword == f.confirmNewPassword) then
    (.error (.passwordMismatch f.confirmNewPassword), db)
  else
    match findUserById userId db with
    | none => (.error .typeError, db)
    | some user =>
      if !(env.compare f.oldPassword user.password) then
        (.error (.wrongOldPassword f.oldPassword), db)
      else if env.compare f.newPassword user.password then
        (.error (.passwordNoOpChange f.newPassword), db)
      else
        let user1 := { user with password := env.hash f.newPassword }
        (.ok (UserDto.fromModel user1), { db with users := updateUser user1 db.users })

section Helpers

variable {α : Type}

/-- Nothing kept by a filter for the negation of `p` can be found by `p`. -/
lemma find?_filter_neg (p : α → Bool) (l : List α) :
    (l.filter (fun a => !p a)).find? p = none := by
  rw [List.find?_eq_none]
  intro x hx
  have h2 := (List.mem_filter.mp hx).2
  simp only [Bool.not_eq_true'] at h2
  simp [h2]

/-- Filtering cannot make an unfindable element findable. -/
lemma find?_sub_filter (p q : α → Bool) (l : List α) (h : l.find? p = none) :
    (l.filter q).find? p = none := by
  rw [List.find?_eq_none] at h ⊢
  intro x hx
  exact h x (List.mem_filter.mp hx).1

/-- A filter and its complement partition the length. -/
lemma length_filter_partition (p : α → Bool) (l : List α) :
    (l.filter p).length + (l.filter (fun a => !p a)).length = l.length := by
  induction l with
  | nil => rfl
  | cons a l ih =>
    rcases h : p a with _ | _ <;> simp [List.filter_cons, h] <;> omega

/-- find? over a cons whose head satisfies the predicate. -/
lemma find?_cons_pos {β : Type} (p : β → Bool) (a : β) (l : List β)
    (h : p a = true) : (a :: l).find? p = some a := by
  simp [List.find?_cons, h]

/-- find? over a cons whose head refutes the predicate. -/
lemma find?_cons_neg {β : Type} (p : β → Bool) (a : β) (l : List β)
    (h : p a = false) : (a :: l).find? p = l.find? p := by
  simp [List.find?_cons, h]

end Helpers

/-- Removing a token's records and the records kept partition the store. -/
lemma length_remove_partition (v : String) (l : List TokenRec) :
    (l.filter (fun t => t.value == v)).length + (removeRefreshToken v l).length =
      l.length := by
  induction l with
  | nil => rfl
  | cons a l ih =>
    rcases h : (a.value == v) with _ | _ <;>
      simp [removeRefreshToken, List.filter_cons, h] at ih ⊢ <;> omega

/-- Looking up the updated id after `updateUser` returns the new row iff the
old lookup found one. -/
lemma find?_updateUser_self (u : User) (l : List User) :
    (updateUser u l).find? (fun v => v.id == u.id) =
      (l.find? (fun v => v.id == u.id)).map (fun _ => u) := by
  rw [updateUser, List.find?_map]
  have hpf : ((fun v : User => v.id == u.id) ∘ fun v => if v.id == u.id then u else v) =
      (fun v : User => v.id == u.id) := by
    funext v
    by_cases h : (v.id == u.id) = true
    · simp [Function.comp, h]
    · simp [Function.comp, h]
  rw [hpf]
  rcases hf : l.find? (fun v => v.id == u.id) with _ | x
  · rw [hf]
    rfl
  · rw [hf]
    have hx := List.find?_some hf
    show some (if (x.id == u.id) = true then u else x) = some u
    rw [if_pos hx]

/-- Looking up any other id is unaffected by `updateUser`. -/
lemma find?_updateUser_other (u : User) (j : Nat) (hj : j ≠ u.id)
    (l : List User) :
    (updateUser u l).find? (fun v => v.id == j) = l.find? (fun v => v.id == j) := by
  rw [updateUser, List.find?_map]
  have hpf : ((fun v : User => v.id == j) ∘ fun v => if v.id == u.id then u else v) =
      (fun v : User => v.id == j) := by
    funext v
    by_cases h : (v.id == u.id) = true
    · have hv : v.id = u.id := by simpa using h
      simp [Function.comp, h, hv, Ne.symm hj]
    · simp [Function.comp, h]
  rw [hpf]
  rcases hf : l.find? (fun v => v.id == j) with _ | x
  · rw [hf]
    rfl
  · rw [hf]
    have hx := List.find?_some hf
    have hxj : x.id = j := by simpa using hx
    have hnc : ¬((x.id == u.id) = true) := by
      simp only [hxj, beq_iff_eq]
      exact hj
    show some (if (x.id == u.id) = true then u else x) = some x
    rw [if_neg hnc]

/-- The (email, otp) lookup after `confirmRegCode` returns the confirmed row
iff the old lookup found one. -/
lemma find?_confirmRegCode (email otp : String) (l : List RegistrationCode) :
    (confirmRegCode email otp l).find? (fun r => r.email == email && r.otp == otp) =
      (l.find? (fun r => r.email == email && r.otp == otp)).map
        (fun cd => { cd with isConfirmed := true }) := by
  rw [confirmRegCode, List.find?_map]
  have hpf : ((fun r : RegistrationCode => r.email == email && r.otp == otp) ∘
      fun r => if r.email == email && r.otp == otp
               then { r with isConfirmed := true } else r) =
      (fun r : RegistrationCode => r.email == email && r.otp == otp) := by
    funext r
    by_cases h : (r.email == email && r.otp == otp) = true
    · have h2 : (r.email == email) = true ∧ (r.otp == otp) = true := by
        simpa [Bool.and_eq_true] using h
      simp [Function.comp, if_pos h, h2.1, h2.2]
    · simp [Function.comp, h]
  rw [hpf]
  rcases hf : l.find? (fun r => r.email == email && r.otp == otp) with _ | x
  · rw [hf]
    rfl
  · rw [hf]
    have hx := List.find?_some hf
    show some (if (x.email == email && x.otp == otp) = true
        then { x with isConfirmed := true } else x) = some { x with isConfirmed := true }
    rw [if_pos hx]

/-- C2: `signUp(email, password)` succeeds iff no account with that email
exists and a confirmed RegistrationCode for that email exists; on success the
code for that email no longer resolves, the account is created pre-activated,
and a token pair plus user projection is returned; the AlreadyRegistered
check precedes the RegistrationNotConfirmed check. -/
theorem signUp_spec (env : Env) (email password : String) (db : DB) :
    ((∃ r, (signUp env email password db).1 = .ok r) ↔
      (findUserByEmail email db = none ∧
        ∃ cd, findRegCode email db = some cd ∧ cd.isConfirmed = true)) ∧
    (∀ r db1, signUp env email password db = (.ok r, db1) →
      findRegCode email db1 = none ∧
      (∃ u, findUserByEmail email db1 = some u ∧ u.isActivated = true ∧
        r.user = UserDto.fromModel u ∧
        env.generateTokens r.user = ⟨r.accessToken, r.refreshToken⟩)) ∧
    (∀ u, findUserByEmail email db = some u →
      (signUp env email password db).1 = .error (.signUpAlreadyRegistered email)) := by
  rcases h1 : findUserByEmail email db with _ | u
  · rcases h2 : findRegCode email db with _ | cd
    · refine ⟨⟨?_, ?_⟩, ?_, ?_⟩
      · rintro ⟨r, hr⟩
        simp [signUp, h1, h2] at hr
      · rintro ⟨-, cd, hcd, -⟩
        exact absurd hcd (by simp)
      · intro r db1 hr
        simp [signUp, h1, h2] at hr
      · intro v hv
        exact absurd hv (by simp)
    · by_cases hconf : cd.isConfirmed = true
      · refine ⟨⟨?_, ?_⟩, ?_, ?_⟩
        · intro _
          exact ⟨rfl, cd, rfl, hconf⟩
        · intro _
          exact ⟨signUpOk env email password, by simp [signUp, h1, h2, hconf]⟩
        · intro r db1 hr
          simp [signUp, h1, h2, hconf] at hr
          obtain ⟨hr1, hr2⟩ := hr
          subst hr1
          subst hr2
          refine ⟨find?_filter_neg (fun r : RegistrationCode => r.email == email)
              db.regCodes,
            newAccount env email password, ?_, rfl, rfl, rfl⟩
          simp [findUserByEmail, newAccount]
        · intro v hv
          exact absurd hv (by simp)
      · refine ⟨⟨?_, ?_⟩, ?_, ?_⟩
        · rintro ⟨r, hr⟩
          simp [signUp, h1, h2, hconf] at hr
        · rintro ⟨-, cd2, hcd2, hconf2⟩
          obtain rfl : cd = cd2 := by injection hcd2
          exact (hconf hconf2).elim
        · intro r db1 hr
          simp [signUp, h1, h2, hconf] at hr
        · intro v hv
          exact absurd hv (by simp)
  · refine ⟨⟨?_, ?_⟩, ?_, ?_⟩
    · rintro ⟨r, hr⟩
      simp [signUp, h1] at hr
    · rintro ⟨hnone, -⟩
      exact absurd hnone (by simp)
    · intro r db1 hr
      simp [signUp, h1] at hr
    · intro v hv
      simp [signUp, h1]

/-- C9: updateProfileData writes only the seven profile fields of the loaded
account: its stored password hash, activation flag and activation link are
unchanged, every other account and the other stores are untouched, and the
call returns the projection of the patched account. -/
theorem updateProfileData_frame (f : ProfileFields) (userId : Nat) (db : DB)
    (user : User) (h : findUserById userId db = some user) :
    (updateProfileData f userId db).1 = .ok (UserDto.fromModel (applyProfile f user)) ∧
    findUserById userId (updateProfileData f userId db).2 = some (applyProfile f user) ∧
    (applyProfile f user).password = user.password ∧
    (applyProfile f user).isActivated = user.isActivated ∧
    (applyProfile f user).activationLink = user.activationLink ∧
    (∀ j, j ≠ userId →
      findUserById j (updateProfileData f userId db).2 = findUserById j db) ∧
    (updateProfileData f userId db).2.regCodes = db.regCodes ∧
    (updateProfileData f userId db).2.tokens = db.tokens := by
  have huid : user.id = userId := by
    have := List.find?_some h
    simpa using this
  have husers : db.users.find? (fun v => v.id == userId) = some user := h
  refine ⟨by simp [updateProfileData, h], ?_, rfl, rfl, rfl, ?_, ?_, ?_⟩
  · simp only [updateProfileData, h]
    show (updateUser (applyProfile f user) db.users).find? (fun v => v.id == userId) =
      some (applyProfile f user)
    have hid2 : (applyProfile f user).id = userId := huid
    rw [← hid2, find?_updateUser_self, hid2, husers]
    rfl
  · intro j hj
    simp only [updateProfileData, h]
    show (updateUser (applyProfile f user) db.users).find? (fun v => v.id == j) =
      findUserById j db
    rw [find?_updateUser_other]
    · rfl
    · show j ≠ (applyProfile f user).id
      rw [show (applyProfile f user).id = userId from huid]
      exact hj
  · simp [updateProfileData, h]
  · simp [updateProfileData, h]

/-- A concrete environment for closed evaluations: the hasher appends "h",
comparison checks that shape, the signer draws a fixed pair, validation
accepts exactly the token "ref1" as belonging to user 1, and the clock reads
50000 ms. -/
def envP : Env :=
  { now := 50000
    hash := fun s => s ++ "h"
    compare := fun p d => d == p ++ "h"
    generateTokens := fun _ => { accessToken := "acc2", refreshToken := "ref2" }
    validateRefresh := fun t => if t == "ref1" then some 1 else none
    freshUserId := 7
    activationLink := "link"
    code := "5678"
    mailOk := true }

/-- A concrete stored account whose password digest is the one `envP` assigns
to "old". -/
def userP : User :=
  { id := 1
    email := "a@x.com"
    password := "oldh"
    activationLink := "l1"
    isActivated := true
    displayName := "dn"
    location := "loc"
    notifyAboutProductUpdates := false
    notifyAboutMarketNewsletter := true
    notifyAboutComments := false
    notifyAboutPurchases := true }

/-- A concrete store holding only `userP`. -/
def dbP : DB :=
  { users := [userP], regCodes := [], tokens := [], outbox := [] }

/-- C5 counterexample: newPassword "old" compares equal to the stored
password, yet because oldPassword is wrong the call fails with the
wrong-old-password error, not NoOpChange. -/
theorem updatePassword_noop_counterexample :
    envP.compare "old" userP.password = true ∧
    findUserById 1 dbP = some userP ∧
    (updateProfilePassword envP ⟨"wrong", "old", "old"⟩ 1 dbP).1 =
      .error (.wrongOldPassword "wrong") ∧
    (updateProfilePassword envP ⟨"wrong", "old", "old"⟩ 1 dbP).1 ≠
      .error (.passwordNoOpChange "old") := by
  refine ⟨by decide, by decide, by decide, by decide⟩

/-- C5 amended: updatePassword fails with Mismatch whenever the two new
passwords differ, and — when they agree, the account loads and the old
password verifies — fails with NoOpChange whenever the new password compares
equal to the stored one; both failures return the store unchanged. -/
theorem updatePassword_checks (env : Env) (f : PasswordFields) (userId : Nat)
    (db : DB) :
    (f.newPassword ≠ f.confirmNewPassword →
      updateProfilePassword env f userId db =
        (.error (.passwordMismatch f.confirmNewPassword), db)) ∧
    (∀ user, findUserById userId db = some user →
      f.newPassword = f.confirmNewPassword →
      env.compare f.oldPassword user.password = true →
      env.compare f.newPassword user.password = true →
      updateProfilePassword env f userId db =
        (.error (.passwordNoOpChange f.newPassword), db)) := by
  constructor
  · intro hne
    have hbe : (f.newPassword == f.confirmNewPassword) = false := by simp [hne]
    simp [updateProfilePassword, hbe]
  · intro user hu heq hold hnew
    have hbe : (f.newPassword == f.confirmNewPassword) = true := by simp [heq]
    simp [updateProfilePassword, hbe, hu, hold, hnew]

/-- C4: verifyRegistrationCode fails as invalid (isExpired = false) when no
row matches both email and otp, fails as expired (isExpired = true) when the
matching row's expiry is in the past, and otherwise marks the row confirmed
and returns its projection. -/
theorem verifyRegistrationCode_spec (env : Env) (email code : String) (db : DB) :
    (findRegCodeByOtp email code db = none →
      verifyRegistrationCode env email code db =
        (.error (.verifyCodeError code false), db)) ∧
    (∀ cd, findRegCodeByOtp email code db = some cd →
      cd.expiresIn < env.now →
      verifyRegistrationCode env email code db =
        (.error (.verifyCodeError code true), db)) ∧
    (∀ cd, findRegCodeByOtp email code db = some cd →
      ¬ cd.expiresIn < env.now →
      (verifyRegistrationCode env email code db).1 =
        .ok (RegCodeDto.fromModel { cd with isConfirmed := true }) ∧
      findRegCodeByOtp email code (verifyRegistrationCode env email code db).2 =
        some { cd with isConfirmed := true }) := by
  refine ⟨?_, ?_, ?_⟩
  · intro h
    simp [verifyRegistrationCode, h]
  · intro cd h hexp
    simp [verifyRegistrationCode, h, hexp]
  · intro cd h hexp
    constructor
    · simp [verifyRegistrationCode, h, hexp]
    · simp only [verifyRegistrationCode, h, if_neg hexp]
      show (confirmRegCode email code db.regCodes).find?
          (fun r => r.email == email && r.otp == code) =
        some { cd with isConfirmed := true }
      rw [find?_confirmRegCode]
      have h2 : db.regCodes.find? (fun r => r.email == email && r.otp == code) =
          some cd := h
      rw [h2]
      rfl

/-- C1: with a stored matching record, a signer-valid token, a resolvable
owner, and a signer whose fresh pair's refresh token differs from T, the
first refresh(T) succeeds and returns a pair whose refresh token differs
from T, and a second refresh(T) on the resulting state fails with
Unauthorized. -/
theorem refresh_single_use (env1 env2 : Env) (tok : String) (db : DB)
    (uid : Nat) (user : User)
    (hne : tok ≠ "")
    (hstored : (findRefreshToken tok db.tokens).isSome = true)
    (hvalid : env1.validateRefresh tok = some uid)
    (huser : findUserById uid db = some user)
    (hfresh : (env1.generateTokens (UserDto.fromModel user)).refreshToken ≠ tok) :
    ∃ r db1, refresh env1 tok db = (.ok r, db1) ∧ r.refreshToken ≠ tok ∧
      (refresh env2 tok db1).1 = .error .unauthorized := by
  obtain ⟨trec, htr⟩ := Option.isSome_iff_exists.mp hstored
  have hbe : (tok == "") = false := by simp [hne]
  have huser2 : db.users.find? (fun u => u.id == uid) = some user := huser
  refine ⟨refreshOk env1 user,
    { db with
        tokens :=
          saveRefreshToken user.id
            (env1.generateTokens (UserDto.fromModel user)).refreshToken
            (removeRefreshToken tok db.tokens) },
    ?_, hfresh, ?_⟩
  · simp [refresh, hbe, htr, hvalid, huser2, findUserById, UserDto.fromModel]
  · have hnone : findRefreshToken tok (saveRefreshToken user.id
        (env1.generateTokens (UserDto.fromModel user)).refreshToken
        (removeRefreshToken tok db.tokens)) = none := by
      rw [findRefreshToken, saveRefreshToken]
      refine (find?_cons_neg (fun t : TokenRec => t.value == tok) _ _ (by simp [hfresh])).trans ?_
      exact find?_sub_filter (fun t : TokenRec => t.value == tok)
        (fun t => !(t.userId == user.id))
        (removeRefreshToken tok db.tokens)
        (find?_filter_neg (fun t : TokenRec => t.value == tok) db.tokens)
    simp [refresh, hbe, hnone]

/-- C6: a refresh whose non-empty token matches a stored record removes the
record before validating: on validation failure the call returns Unauthorized
with the record already removed, so the token no longer resolves; with
exactly one matching record the call consumes exactly one stored token, and
on success (per-user-keyed store, record owned by the validated id) it stores
exactly one new one, leaving the store size unchanged. -/
theorem refresh_consumes (env : Env) (tok : String) (db : DB) (trec : TokenRec)
    (hne : tok ≠ "")
    (hfound : findRefreshToken tok db.tokens = some trec)
    (hone : (db.tokens.filter (fun t => t.value == tok)).length = 1) :
    ((removeRefreshToken tok db.tokens).length + 1 = db.tokens.length) ∧
    (env.validateRefresh tok = none →
      refresh env tok db =
        (.error .unauthorized, { db with tokens := removeRefreshToken tok db.tokens }) ∧
      findRefreshToken tok (removeRefreshToken tok db.tokens) = none) ∧
    (∀ uid user, env.validateRefresh tok = some uid →
      findUserById uid db = some user →
      trec.userId = uid →
      db.tokens.Pairwise (fun a b => a.userId ≠ b.userId) →
      ∃ r db1, refresh env tok db = (.ok r, db1) ∧
        db1.tokens.length = db.tokens.length) := by
  have hbe : (tok == "") = false := by simp [hne]
  have hlen := length_remove_partition tok db.tokens
  refine ⟨by omega, ?_, ?_⟩
  · intro hval
    refine ⟨by simp [refresh, hbe, hfound, hval], ?_⟩
    exact find?_filter_neg (fun t : TokenRec => t.value == tok) db.tokens
  · intro uid user hval huser hrecid hpair
    have huser2 : db.users.find? (fun u => u.id == uid) = some user := huser
    have huid : user.id = uid := by simpa using List.find?_some huser
    have htv : trec.value = tok := by simpa using List.find?_some hfound
    have htm : trec ∈ db.tokens := List.mem_of_find?_eq_some hfound
    have hid : ∀ x ∈ removeRefreshToken tok db.tokens,
        (!(x.userId == user.id)) = true := by
      intro x hx
      obtain ⟨hxm, hxv⟩ := List.mem_filter.mp hx
      have hxvne : x.value ≠ tok := by simpa using hxv
      have hxt : x ≠ trec := fun hc => hxvne (hc ▸ htv)
      have hner := hpair.forall (fun a b h => Ne.symm h) hxm htm hxt
      have h2 : x.userId ≠ user.id := by
        rw [huid, ← hrecid]
        exact hner
      simp [h2]
    have hfid : (removeRefreshToken tok db.tokens).filter
        (fun t => !(t.userId == user.id)) = removeRefreshToken tok db.tokens :=
      List.filter_eq_self.mpr hid
    refine ⟨refreshOk env user,
      { db with
          tokens :=
            saveRefreshToken user.id
              (env.generateTokens (UserDto.fromModel user)).refreshToken
              (removeRefreshToken tok db.tokens) },
      ?_, ?_⟩
    · simp [refresh, hbe, hfound, hval, huser2, findUserById, UserDto.fromModel]
    · show (saveRefreshToken user.id
        (env.generateTokens (UserDto.fromModel user)).refreshToken
        (removeRefreshToken tok db.tokens)).length = db.tokens.length
      rw [saveRefreshToken]
      rw [List.length_cons, hfid]
      omega

/-- C7: when the email is free and no unexpired code row blocks the call,
issuance returns the projection of a row holding the drawn code with
isConfirmed = false and expiry exactly 60 seconds (60000 ms) after the
current time, and that row is what the store then resolves for the email. -/
theorem sendCode_issue_spec (env : Env) (email : String) (db : DB)
    (hnouser : findUserByEmail email db = none)
    (hcool : ∀ cd, findRegCode email db = some cd → cd.expiresIn ≤ env.now) :
    (sendRegistrationCode env email db).1 =
      .ok (RegCodeDto.fromModel ⟨email, env.code, env.now + 60000, false⟩) ∧
    findRegCode email (sendRegistrationCode env email db).2 =
      some ⟨email, env.code, env.now + 60000, false⟩ := by
  have hissue : sendRegistrationCode env email db = issueCode env email db := by
    rcases h2 : findRegCode email db with _ | cd
    · simp [sendRegistrationCode, hnouser, h2]
    · have hle := hcool cd h2
      have hnl : ¬ env.now < cd.expiresIn := by omega
      simp [sendRegistrationCode, hnouser, h2, hnl]
  rw [hissue]
  refine ⟨rfl, ?_⟩
  show (upsertRegCode ⟨email, env.code, env.now + 60000, false⟩ db.regCodes).find?
      (fun r => r.email == email) =
    some ⟨email, env.code, env.now + 60000, false⟩
  rw [upsertRegCode]
  exact find?_cons_pos _ _ _ (by simp)

/-- C8: the mail dispatch is fire-and-forget — the call's returned result and
the gate-relevant state (users, regCodes, tokens) are identical whatever the
external sender's outcome; only the outbox records that outcome. -/
theorem sendCode_mail_independent (env : Env) (b1 b2 : Bool) (email : String)
    (db : DB) :
    (sendRegistrationCode { env with mailOk := b1 } email db).1 =
      (sendRegistrationCode { env with mailOk := b2 } email db).1 ∧
    (sendRegistrationCode { env with mailOk := b1 } email db).2.users =
      (sendRegistrationCode { env with mailOk := b2 } email db).2.users ∧
    (sendRegistrationCode { env with mailOk := b1 } email db).2.regCodes =
      (sendRegistrationCode { env with mailOk := b2 } email db).2.regCodes ∧
    (sendRegistrationCode { env with mailOk := b1 } email db).2.tokens =
      (sendRegistrationCode { env with mailOk := b2 } email db).2.tokens := by
  rcases h1 : findUserByEmail email db with _ | u
  · rcases h2 : findRegCode email db with _ | cd
    · simp [sendRegistrationCode, issueCode, h1, h2]
    · by_cases hc : env.now < cd.expiresIn
      · simp [sendRegistrationCode, h1, h2, hc]
      · simp [sendRegistrationCode, issueCode, h1, h2, hc]
  · simp [sendRegistrationCode, h1]

/-- C10: re-issuing a code over an expired (even previously confirmed) row
upserts it with isConfirmed = false, so a following signUp for that email
fails with RegistrationNotConfirmed until the new code is verified. -/
theorem reissue_unconfirms (env : Env) (email : String) (db : DB)
    (cd : RegistrationCode)
    (hnouser : findUserByEmail email db = none)
    (hcd : findRegCode email db = some cd)
    (_hconf : cd.isConfirmed = true)
    (hexp : cd.expiresIn ≤ env.now) :
    ∃ dto db1, sendRegistrationCode env email db = (.ok dto, db1) ∧
      findRegCode email db1 = some ⟨email, env.code, env.now + 60000, false⟩ ∧
      ∀ env2 password, (signUp env2 email password db1).1 =
        .error (.signUpNotConfirmed email) := by
  have hnl : ¬ env.now < cd.expiresIn := by omega
  have hfind : (upsertRegCode ⟨email, env.code, env.now + 60000, false⟩
      db.regCodes).find? (fun r => r.email == email) =
      some ⟨email, env.code, env.now + 60000, false⟩ := by
    rw [upsertRegCode]
    exact find?_cons_pos _ _ _ (by simp)
  have hsend : sendRegistrationCode env email db =
      (.ok (RegCodeDto.fromModel ⟨email, env.code, env.now + 60000, false⟩),
       { db with
          regCodes := upsertRegCode ⟨email, env.code, env.now + 60000, false⟩ db.regCodes
          outbox := (email, env.code, env.mailOk) :: db.outbox }) := by
    simp [sendRegistrationCode, issueCode, hnouser, hcd, hnl]
  refine ⟨_, _, hsend, hfind, ?_⟩
  intro env2 password
  have hu2 : db.users.find? (fun u => u.email == email) = none := hnouser
  simp [signUp, findUserByEmail, findRegCode, hu2, hfind]

/-- A store whose only row is a code for "a@x.com" expiring at t = 70000 ms,
20 seconds after `envP.now`. -/
def dbB : DB :=
  { users := []
    regCodes := [⟨"a@x.com", "1234", 70000, false⟩]
    tokens := []
    outbox := [] }

/-- C3: the cooldown branch is taken (the stored expiry is 20 seconds in the
future), yet the reported secondsLeft is the difference of the two
seconds-of-minute fields, 10 - 50 = -40 — neither positive nor the remaining
20 seconds the claim requires. -/
theorem sendCode_cooldown_secondsLeft_bug :
    envP.now < 70000 ∧
    (70000 - envP.now) / 1000 = 20 ∧
    (sendRegistrationCode envP "a@x.com" dbB).1 =
      .error (.sendCodeCooldown "a@x.com" (-40)) ∧
    ¬ (0 : Int) < -40 := by decide

/-- A store holding a confirmed unexpired code for "a@x.com" and no account,
ready for signUp. -/
def dbS : DB :=
  { users := []
    regCodes := [⟨"a@x.com", "1234", 80000, true⟩]
    tokens := []
    outbox := [] }

/-- Witness for C2: on `dbS` the conditions hold and signUp succeeds. -/
theorem signUp_spec_witness :
    ∃ r, (signUp envP "a@x.com" "pw" dbS).1 = .ok r :=
  (signUp_spec envP "a@x.com" "pw" dbS).1.mpr
    ⟨by decide, ⟨"a@x.com", "1234", 80000, true⟩, by decide, rfl⟩

/-- A store holding an unconfirmed, unexpired code for "a@x.com". -/
def dbV : DB :=
  { users := []
    regCodes := [⟨"a@x.com", "1234", 80000, false⟩]
    tokens := []
    outbox := [] }

/-- Witness for C4: verifying the matching unexpired code on `dbV` confirms
the row and returns its projection. -/
theorem verifyRegistrationCode_spec_witness :
    (verifyRegistrationCode envP "a@x.com" "1234" dbV).1 =
      .ok (RegCodeDto.fromModel ⟨"a@x.com", "1234", 80000, true⟩) ∧
    findRegCodeByOtp "a@x.com" "1234"
        (verifyRegistrationCode envP "a@x.com" "1234" dbV).2 =
      some ⟨"a@x.com", "1234", 80000, true⟩ :=
  (verifyRegistrationCode_spec envP "a@x.com" "1234" dbV).2.2
    ⟨"a@x.com", "1234", 80000, false⟩ (by decide) (by decide)

/-- Witness for C5 (amended): a same-as-current new password with a correct
old password yields NoOpChange, and a mismatched confirmation yields
Mismatch, both leaving the store unchanged. -/
theorem updatePassword_checks_witness :
    updateProfilePassword envP ⟨"old", "old", "old"⟩ 1 dbP =
      (.error (.passwordNoOpChange "old"), dbP) ∧
    updateProfilePassword envP ⟨"x", "a", "b"⟩ 1 dbP =
      (.error (.passwordMismatch "b"), dbP) :=
  ⟨(updatePassword_checks envP ⟨"old", "old", "old"⟩ 1 dbP).2 userP
      (by decide) rfl (by decide) (by decide),
   (updatePassword_checks envP ⟨"x", "a", "b"⟩ 1 dbP).1 (by decide)⟩

/-- A store holding the single session record (user 1, "ref1") for `userP`. -/
def dbR : DB :=
  { users := [userP], regCodes := [], tokens := [⟨1, "ref1"⟩], outbox := [] }

/-- Witness for C1: on `dbR` the first refresh("ref1") succeeds and the
second fails with Unauthorized. -/
theorem refresh_single_use_witness :
    (refresh envP "ref1" dbR).1.isOk = true ∧
    (refresh envP "ref1" (refresh envP "ref1" dbR).2).1 = .error .unauthorized := by
  obtain ⟨r, db1, h1, hne2, h2⟩ := refresh_single_use envP envP "ref1" dbR 1 userP
    (by decide) (by decide) (by decide) (by decide) (by decide)
  rw [h1]
  exact ⟨rfl, h2⟩

/-- Witness for C6: on `dbR` the removal drops exactly one record and a
successful refresh leaves the store size unchanged. -/
theorem refresh_consumes_witness :
    (removeRefreshToken "ref1" dbR.tokens).length + 1 = dbR.tokens.length ∧
    (refresh envP "ref1" dbR).2.tokens.length = dbR.tokens.length := by
  have h := refresh_consumes envP "ref1" dbR ⟨1, "ref1"⟩
    (by decide) (by decide) (by decide)
  obtain ⟨r, db1, h1, h2⟩ := h.2.2 1 userP (by decide) (by decide) (by decide)
    (by simp [dbR])
  rw [h1]
  exact ⟨h.1, h2⟩

/-- Witness for C7: issuing for a fresh email on `dbP` upserts the 60-second
row and returns its projection. -/
theorem sendCode_issue_spec_witness :
    (sendRegistrationCode envP "c@x.com" dbP).1 =
      .ok (RegCodeDto.fromModel ⟨"c@x.com", "5678", 110000, false⟩) ∧
    findRegCode "c@x.com" (sendRegistrationCode envP "c@x.com" dbP).2 =
      some ⟨"c@x.com", "5678", 110000, false⟩ :=
  sendCode_issue_spec envP "c@x.com" dbP (by decide)
    (fun cd h => by simp [findRegCode, dbP] at h)

/-- The profile patch used by the C9 witness. -/
def fW : ProfileFields :=
  { email := "b@x.com"
    displayName := "nn"
    location := "q"
    notifyAboutProductUpdates := true
    notifyAboutMarketNewsletter := false
    notifyAboutComments := true
    notifyAboutPurchases := false }

/-- Witness for C9: patching `userP` returns the patched projection and
leaves the password hash in place. -/
theorem updateProfileData_frame_witness :
    (updateProfileData fW 1 dbP).1 = .ok (UserDto.fromModel (applyProfile fW userP)) ∧
    findUserById 1 (updateProfileData fW 1 dbP).2 = some (applyProfile fW userP) ∧
    (applyProfile fW userP).password = userP.password := by
  have h := updateProfileData_frame fW 1 dbP userP (by decide)
  exact ⟨h.1, h.2.1, h.2.2.1⟩

/-- A store holding a confirmed but expired code for "a@x.com" (expiry 40000
ms, before `envP.now`). -/
def dbX : DB :=
  { users := []
    regCodes := [⟨"a@x.com", "1234", 40000, true⟩]
    tokens := []
    outbox := [] }

/-- Witness for C10: re-issuing over the expired confirmed code on `dbX`
succeeds, stores an unconfirmed row, and a following signUp is rejected as
not confirmed. -/
theorem reissue_unconfirms_witness :
    ∃ dto db1, sendRegistrationCode envP "a@x.com" dbX = (.ok dto, db1) ∧
      findRegCode "a@x.com" db1 = some ⟨"a@x.com", "5678", 110000, false⟩ ∧
      (signUp envP "a@x.com" "pw" db1).1 = .error (.signUpNotConfirmed "a@x.com") := by
  obtain ⟨dto, db1, h1, h2, h3⟩ := reissue_unconfirms envP "a@x.com" dbX
    ⟨"a@x.com", "1234", 40000, true⟩ (by decide) (by decide) (by decide) (by decide)
  exact ⟨dto, db1, h1, h2, h3 envP "pw"⟩

end DashboardApi
